/-
Verification of the SPJIMR PGPM RAG pipeline (TypeScript backend) against its
natural-language specification.

The development shallowly embeds the deterministic core of the backend:
  - shared/queryHeuristics.ts (keyword / follow-up / known-term classification)
  - shared/conversationMemory.ts and shared/conversation.ts (bounded turn
    history and composite-query construction)
  - langgraph/nodes/queryValidation.ts, retrieval.ts (the pure
    getAdaptiveConfidenceThreshold), contextCheck.ts, generation.ts,
    responseValidation.ts
  - langgraph/workflow.ts (executeRAGWorkflowFallback, the sequencer actually
    used at runtime)
  - the SSE streaming handler of server.ts (handleStreamingChat), modelled as
    the sequence of event frames it writes.

External effects (the similarity-search service and the LLM) are modelled as
oracle functions passed to each node; everything downstream of those calls is
translated from the source.  JS numbers that hold confidences are modelled as
rationals; JS strings as Lean strings (the sources only manipulate ASCII).
-/
import Mathlib

namespace SpjimrRag

/-! ## JS string primitives

`strContains s sub` models `s.includes(sub)`; the word-boundary scanners model
the specific `\b...\b` regular-expression tests appearing in the source. -/

/-- Consume the literal `p` from the front of `s`; return the rest. -/
def dropLit : List Char → List Char → Option (List Char)
  | [], s => some s
  | _ :: _, [] => none
  | c :: p, d :: s => if c = d then dropLit p s else none

/-- Substring test on character lists. -/
def containsSub (sub : List Char) : List Char → Bool
  | [] => sub.isEmpty
  | c :: rest => (dropLit sub (c :: rest)).isSome || containsSub sub rest

/-- JS `s.includes(sub)`. -/
def strContains (s sub : String) : Bool := containsSub sub.data s.data

/-- JS `s.toLowerCase()` (the sources only lower-case ASCII). -/
def jsToLower (s : String) : String := (s.data.map Char.toLower).asString

/-- JS `s.trim()`: strip leading and trailing whitespace. -/
def jsTrim (s : String) : String :=
  (((s.data.dropWhile Char.isWhitespace).reverse.dropWhile Char.isWhitespace).reverse).asString

/-- JS regex word character `\w` = `[A-Za-z0-9_]`. -/
def isWordChar (c : Char) : Bool := c.isAlphanum || c = '_'

/-- A `\b` boundary holds after a pattern iff the next char is absent or non-word. -/
def boundaryAfter : List Char → Bool
  | [] => true
  | c :: _ => !isWordChar c

/-- Scan every position of the string whose preceding character is absent or a
non-word character (a `\b` boundary) and apply the matcher `att` there. -/
def scanBoundary (att : List Char → Bool) : Option Char → List Char → Bool
  | _, [] => false
  | prev, c :: rest =>
    ((match prev with | none => true | some p => !isWordChar p) && att (c :: rest))
      || scanBoundary att (some c) rest

/-- JS `/\bpat\b/i.test(s)` for a literal alternative `pat` (which may contain
literal spaces); both sides are compared lower-cased. -/
def hasWordOccur (s pat : String) : Bool :=
  scanBoundary
    (fun l => match dropLit (jsToLower pat).data l with
      | none => false
      | some r => boundaryAfter r)
    none (jsToLower s).data

/-- Case-insensitive literal consumption that also returns the consumed
original-case characters (JS regex matches report the original slice). -/
def dropLitCI : List Char → List Char → Option (List Char × List Char)
  | [], s => some ([], s)
  | _ :: _, [] => none
  | c :: p, d :: s =>
    if d.toLower = c then (dropLitCI p s).map (fun m => (d :: m.1, m.2)) else none

/-- Try to match `(1[58])\s*-?month` (case-insensitive) at the head of `s`,
returning the matched slice and the remainder. -/
def matchMonthAt : List Char → Option (List Char × List Char)
  | '1' :: d :: rest =>
    if d = '5' || d = '8' then
      let ws := rest.takeWhile Char.isWhitespace
      let r1 := rest.drop ws.length
      let hyr : List Char × List Char := match r1 with
        | '-' :: t => (['-'], t)
        | _ => ([], r1)
      match dropLitCI "month".data hyr.2 with
      | some m => some ('1' :: d :: (ws ++ hyr.1 ++ m.1), m.2)
      | none => none
    else none
  | _ => none

/-- Fuel-driven global scan collecting every match of the month pattern, in
order, resuming after each match (JS `String.prototype.match` with `/g`). -/
def scanMonthsAux : Nat → List Char → List String
  | 0, _ => []
  | _ + 1, [] => []
  | fuel + 1, c :: rest =>
    match matchMonthAt (c :: rest) with
    | some m => m.1.asString :: scanMonthsAux fuel m.2
    | none => scanMonthsAux fuel rest

/-- JS `content.match(/(1[58])\s*-?month/gi)` as the list of matched slices
(`[]` plays the role of a `null` result). -/
def jsMatchMonths (s : String) : List String := scanMonthsAux s.data.length s.data

/-- JS single-character string indexing `s[i]` (empty string for out of range;
the source only indexes non-empty match strings). -/
def jsCharAt (s : String) (i : Nat) : String :=
  match s.data.get? i with
  | some c => String.singleton c
  | none => ""

/-! ## shared/queryHeuristics.ts -/

/-- Embedding of `normalize` from queryHeuristics.ts: lower-case then trim. -/
def normalize (s : String) : String := jsTrim (jsToLower s)

/-- Embedding of `KNOWN_TERMS` from queryHeuristics.ts. -/
def KNOWN_TERMS : List String :=
  ["abhyudaya", "docc", "sitaras", "samavesh", "intex",
   "aicte", "aacsb", "amba", "ppt", "cis",
   "mccombs", "insead", "cornell", "michigan",
   "barcelona", "reutlingen", "esic", "esb"]

/-- Embedding of `isKnownPGPMTerm` from queryHeuristics.ts. -/
def isKnownPGPMTerm (query : String) : Bool := KNOWN_TERMS.contains (normalize query)

/-- Embedding of `hasRelevantKeywords` from queryHeuristics.ts: substring match against the
fixed domain-keyword list on the normalized query. -/
def hasRelevantKeywords (query : String) : Bool :=
  let relevantKeywords :=
    ["spjimr", "pgpm", "post graduate programme", "management",
     "admission", "eligibility", "curriculum", "fees", "placement",
     "duration", "campus", "accreditation", "ranking", "faculty"]
  relevantKeywords.any (fun k => strContains (normalize query) k)

/-- The anchored alternatives of the four regex families of `isFollowUpQuery` in
queryHeuristics.ts, expanded: `^(longer|more|elaborate|tell me more|expand|details?)$`,
`^(what else|any other|additional|anything else)$`,
`^(it|this|that|the program|the course)$`, and
`^(give me|show me|tell me) (more|all|everything|details)$`. -/
def followUpAlternatives : List String :=
  ["longer", "more", "elaborate", "tell me more", "expand", "detail", "details",
   "what else", "any other", "additional", "anything else",
   "it", "this", "that", "the program", "the course",
   "give me more", "give me all", "give me everything", "give me details",
   "show me more", "show me all", "show me everything", "show me details",
   "tell me more", "tell me all", "tell me everything", "tell me details"]

/-- Embedding of `isFollowUpQuery` from queryHeuristics.ts: the normalized query matches one
of the anchored alternatives exactly. -/
def isFollowUpQuery (query : String) : Bool := followUpAlternatives.contains (normalize query)

/-! ## shared/conversationMemory.ts -/

/-- A conversation turn (`ConversationMemory.history` entry).  The timestamp the
source stamps with `new Date()` is supplied by the environment. -/
structure Turn where
  timestamp : Nat
  question : String
  answer : String
  confidence : ℚ
  sources : List String
deriving Repr, DecidableEq

/-- Embedding of `maxHistoryLength` from conversationMemory.ts. -/
def maxHistoryLength : Nat := 10

/-- Embedding of `ConversationMemory.addTurn`: push the turn, then `shift()` (drop the
oldest) if the history exceeds `maxHistoryLength`. -/
def addTurn (t : Turn) (history : List Turn) : List Turn :=
  let h := history ++ [t]
  if h.length > maxHistoryLength then h.tail else h

/-- Embedding of `ConversationMemory.getRecentContext(turnCount)`: render the last
`turnCount` turns (`history.slice(-turnCount)`; `slice(-0)` is the whole array)
as `Q:`/`A:` blocks joined by blank lines. -/
def getRecentContext (history : List Turn) (turnCount : Nat) : String :=
  let recentTurns := if turnCount = 0 then history else history.drop (history.length - turnCount)
  String.intercalate "\n\n"
    (recentTurns.map (fun t => "Q: " ++ t.question ++ "\nA: " ++ t.answer))

/-! ## shared/conversation.ts -/

/-- Embedding of `buildCompositeQuery(question, memory)` from conversation.ts. -/
def buildCompositeQuery (question : String) (history : List Turn) : String :=
  let q := jsTrim question
  if q = "" then q
  else if isKnownPGPMTerm q then q
  else if isFollowUpQuery q then
    let recentContext := getRecentContext history 5
    if recentContext ≠ "" then
      "Previous conversation context:\n" ++ recentContext ++
        "\n\nCurrent user request: " ++ q ++
        "\n\nNote: This appears to be a follow-up query asking for more detailed information about the previously discussed SPJIMR PGPM topics."
    else
      "User request: " ++ q ++ " (Note: This appears to be a request for detailed SPJIMR PGPM information)"
  else
    let recentContext := getRecentContext history 2
    if recentContext ≠ "" then recentContext ++ "\n\nUser: " ++ q else q

/-! ## types/rag.ts -/

/-- A retrieved document: `pageContent` plus the `source` metadata field (the
only metadata the embedded nodes read). -/
structure Doc where
  pageContent : String
  source : String
deriving Repr, DecidableEq

/-- Embedding of `RAGState` from types/rag.ts, restricted to the fields the pipeline
threads.  `confidence` is optional in TS but is set in the initial state and by
every node that the claims concern, so it is kept total here. -/
structure RAGState where
  query : String
  isRelevant : Bool
  retrievedDocs : List Doc
  hasAnswer : Bool
  context : String
  response : String
  needsValidation : Bool
  confidence : ℚ
  sources : List String
  errorMessage : Option String
deriving Repr, DecidableEq

/-- The error classes of types/rag.ts that nodes may throw. -/
inductive RagError where
  | validationError
  | retrievalError
  | generationError
deriving Repr, DecidableEq

/-- Template `RESPONSE_TEMPLATES.NOT_RELEVANT`. -/
def NOT_RELEVANT : String :=
  "I can only answer questions about the SPJIMR PGPM program. Please ask about admissions, curriculum, fees, placements, or eligibility."

/-- Template `RESPONSE_TEMPLATES.NO_INFORMATION`. -/
def NO_INFORMATION : String :=
  "I don\x27t have enough information to answer this specific question about the PGPM program. Please contact SPJIMR directly for more details."

/-- Template `RESPONSE_TEMPLATES.VERIFICATION_FAILED`. -/
def VERIFICATION_FAILED : String :=
  "I\x27m having trouble processing this request right now. Please try rephrasing your question or contact SPJIMR directly."

/-! ## External-call oracles

Each LLM / vector-store call is an oracle.  A structured-output call either
fails to produce usable JSON (`parseFail`, which the node turns into a
`ValidationError`) or yields a well-typed reply whose numeric fields are
unconstrained rationals — the source never applies its declared zod schemas, so
out-of-range numbers flow through (see the JSON-decode model further below for
replies that parse but are not even well-typed). -/

/-- Outcome of the query-validation classifier call (queryValidation.ts). -/
inductive QueryJudgeOutcome where
  | parseFail
  | reply (isRelevant : Bool) (confidence : ℚ)
deriving Repr, DecidableEq

/-- Outcome of the context-sufficiency judge call (contextCheck.ts). -/
inductive CtxJudgeOutcome where
  | parseFail
  | reply (hasAnswer : Bool) (confidence : ℚ)
deriving Repr, DecidableEq

/-- Outcome of the response-validation judge call (responseValidation.ts):
`parseFail` is a JSON-decode failure (rethrown as `ValidationError`),
`callFail` any other thrown error (degraded template), and `reply` a parsed
reply — whose content the node then ignores entirely. -/
inductive RespJudgeOutcome where
  | parseFail
  | callFail
  | reply
deriving Repr, DecidableEq

/-- The oracle bundle for one pipeline run. `retrieve` stands for the whole
external similarity-search interaction of retrieval.ts (primary, booster and
keyword passes, deduplication and reordering), returning the final
document list and source list, or a thrown error.  `generate` is the grounded
generation call `(context, query) ↦ text`; `fallbackGen` the
`FALLBACK_RESPONSE_PROMPT` call of generation.ts. -/
structure Oracles where
  queryJudge : String → QueryJudgeOutcome
  retrieve : String → Except Unit (List Doc × List String)
  ctxJudge : String → String → CtxJudgeOutcome
  generate : String → String → Except Unit String
  fallbackGen : String → Except Unit String

/-- JS `x || d` on a confidence that is always a number here: `0` is falsy. -/
def jsOrQ (c d : ℚ) : ℚ := if c = 0 then d else c

/-! ## langgraph/nodes/queryValidation.ts -/

/-- The deterministic relevance fallback of queryValidationNode (lines
124-127): domain keywords, the `\b(pgpm|spjimr|mba)\b/i` test, trimmed length
at most 3, or a known PGPM term. -/
def fallbackRelevant (query : String) : Bool :=
  hasRelevantKeywords query ||
  (hasWordOccur query "pgpm" || hasWordOccur query "spjimr" || hasWordOccur query "mba") ||
  decide ((jsTrim query).length ≤ 3) ||
  isKnownPGPMTerm query

/-- Embedding of `queryValidationNode`: classify via the LLM, then OR the verdict with the
deterministic fallback.  `sources` is reset only when the classifier itself
said relevant. -/
def queryValidationNode (judge : String → QueryJudgeOutcome) (s : RAGState) :
    Except RagError RAGState :=
  match judge s.query with
  | .parseFail => .error .validationError
  | .reply isRel conf =>
    let s1 := { s with isRelevant := isRel || fallbackRelevant s.query, confidence := conf }
    .ok (if isRel then { s1 with sources := [] } else s1)

/-! ## langgraph/nodes/retrieval.ts -/

/-- Embedding of `retrievalNode`: the searches themselves are the `retrieve` oracle; a
thrown error becomes a `RetrievalError`. -/
def retrievalNode (retrieve : String → Except Unit (List Doc × List String))
    (s : RAGState) : Except RagError RAGState :=
  match retrieve s.query with
  | .error _ => .error .retrievalError
  | .ok r => .ok { s with retrievedDocs := r.1, sources := r.2 }

/-- One row of the `specificQueries` table of
`getAdaptiveConfidenceThreshold` (retrieval.ts lines 330-339). -/
structure ThresholdEntry where
  keywords : List String
  indicators : List String
  threshold : ℚ

/-- The `specificQueries` table, in source order. -/
def specificQueries : List ThresholdEntry :=
  [⟨["fee", "cost", "price"], ["fee", "cost", "rs.", "rupees", "lakh"], (mkRat 2 10)⟩,
   ⟨["duration", "length", "time"], ["month", "year", "duration"], (mkRat 2 10)⟩,
   ⟨["eligibility", "requirement"], ["eligib", "require", "criteria"], (mkRat 2 10)⟩,
   ⟨["deadline", "date"], ["deadline", "date", "last date"], (mkRat 2 10)⟩,
   ⟨["salary", "package"], ["salary", "lpa", "package", "compensation"], (mkRat 2 10)⟩,
   ⟨["admission", "application"], ["admission", "application", "apply"], (mkRat 2 10)⟩,
   ⟨["curriculum", "subject", "course"], ["curriculum", "subject", "course", "module"], (mkRat 2 10)⟩,
   ⟨["placement", "job", "career"], ["placement", "job", "career", "company"], (mkRat 2 10)⟩]

/-- An entry fires when the lowered query contains one of its keywords and the
lowered context one of its indicators. -/
def entryMatches (e : ThresholdEntry) (queryLower contextLower : String) : Bool :=
  e.keywords.any (fun k => strContains queryLower k) &&
  e.indicators.any (fun i => strContains contextLower i)

/-- The for-loop of `getAdaptiveConfidenceThreshold`: the threshold of the first
matching entry, else fall through. -/
def thresholdScan (queryLower contextLower : String) : List ThresholdEntry → ℚ
  | [] => (mkRat 3 10)
  | e :: rest =>
    if entryMatches e queryLower contextLower then e.threshold
    else thresholdScan queryLower contextLower rest

/-- Embedding of `getAdaptiveConfidenceThreshold(query, contextContent)` from retrieval.ts
(base threshold 0.3). -/
def getAdaptiveConfidenceThreshold (query contextContent : String) : ℚ :=
  thresholdScan (jsToLower query) (jsToLower contextContent) specificQueries

/-! ## langgraph/nodes/contextCheck.ts -/

/-- The concatenated context blob: `Document N:` markers joined by `---`
separators (contextCheck.ts lines 79-81; generation.ts rebuilds the same blob
in its salvage branches). -/
def docsContentOf (docs : List Doc) : String :=
  String.intercalate "\n---\n"
    (docs.enum.map (fun p => "Document " ++ toString (p.1 + 1) ++ ":\n" ++ p.2.pageContent))

/-- Embedding of `contextCheckNode`.  The second component records whether the judge call
was made.  With no retrieved documents the node returns the fixed negative
state without any external call; otherwise the verdict of the judge is gated by the
adaptive threshold, the context blob is kept only when the final `hasAnswer` is
true, and the returned confidence is the raw judge confidence. -/
def contextCheckNode (judge : String → String → CtxJudgeOutcome) (s : RAGState) :
    Except RagError RAGState × Bool :=
  if s.retrievedDocs.length = 0 then
    (.ok { s with hasAnswer := false, context := "", confidence := 0 }, false)
  else
    let docsContent := docsContentOf s.retrievedDocs
    match judge docsContent s.query with
    | .parseFail => (.error .validationError, true)
    | .reply hA conf =>
      let confidenceThreshold := getAdaptiveConfidenceThreshold s.query docsContent
      let finalHasAnswer := hA && decide (confidenceThreshold ≤ conf)
      (.ok { s with
              hasAnswer := finalHasAnswer,
              context := if finalHasAnswer then docsContent else "",
              confidence := conf }, true)

/-! ## langgraph/nodes/generation.ts -/

/-- Branch-2b test 1: `/^(longer|more|elaborate|tell me more|expand|details?|what else|any other|additional)$/i.test(state.query.trim())`. -/
def isFollowUpGen (query : String) : Bool :=
  ["longer", "more", "elaborate", "tell me more", "expand", "detail", "details",
   "what else", "any other", "additional"].contains (jsToLower (jsTrim query))

/-- Branch-2b test 2: `/\b(stats?|statistics|data|numbers|figures|all data|give me all|show me all|tell me all)\b/i.test(state.query)` (`stats?` = `stat` or `stats`). -/
def isStatsGen (query : String) : Bool :=
  ["stat", "stats", "statistics", "data", "numbers", "figures", "all data",
   "give me all", "show me all", "tell me all"].any (fun p => hasWordOccur query p)

/-- Branch-2b test 3: `/^(everything|tell me everything|all information|complete|comprehensive|full)$/i.test(state.query.trim())`. -/
def isBroadGen (query : String) : Bool :=
  ["everything", "tell me everything", "all information", "complete",
   "comprehensive", "full"].contains (jsToLower (jsTrim query))

/-- Test `/\b(duration|how long|months?|length)\b/i.test(state.query)`. -/
def wantsDurationGen (query : String) : Bool :=
  ["duration", "how long", "month", "months", "length"].any (fun p => hasWordOccur query p)

/-- Match `social\s*work` or `social\s*projects` at a position: the literal
`social`, any whitespace, the suffix, then a `\b` boundary. -/
def matchSocialAt (suffix : String) (l : List Char) : Bool :=
  match dropLit "social".data l with
  | none => false
  | some r =>
    match dropLit suffix.data (r.dropWhile Char.isWhitespace) with
    | none => false
    | some r2 => boundaryAfter r2

/-- Test `/\b(abhyudaya|social\s*work|social\s*projects|docc|underprivileged|community)\b/i.test(state.query)`. -/
def wantsSocialGen (query : String) : Bool :=
  hasWordOccur query "abhyudaya" ||
  scanBoundary (matchSocialAt "work") none (jsToLower query).data ||
  scanBoundary (matchSocialAt "projects") none (jsToLower query).data ||
  hasWordOccur query "docc" ||
  hasWordOccur query "underprivileged" ||
  hasWordOccur query "community"

/-- The fee-information document probe of branch 2a (generation.ts 137-140). -/
def hasFeeInfoDoc (docs : List Doc) : Bool :=
  docs.any (fun d =>
    let content := jsToLower d.pageContent
    strContains content "fee" || strContains content "cost" || strContains content "rs." ||
    strContains content "lakh" || strContains content "rupees")

/-- The social-content document probe of branch 2d (generation.ts 209-214). -/
def hasSocialDoc (docs : List Doc) : Bool :=
  docs.any (fun d =>
    let content := jsToLower d.pageContent
    strContains content "abhyudaya" || strContains content "docc" ||
    strContains content "social" || strContains content "community" ||
    strContains content "underprivileged" || strContains content "citizenship")

/-- Embedding of `state.retrievedDocs.map(d => d.pageContent.match(...)).flat().filter(Boolean)[0]`:
first month-pattern match over all documents. -/
def docsMonthMatch (docs : List Doc) : Option String :=
  ((docs.map (fun d => jsMatchMonths d.pageContent)).flatten).head?

/-- The synthesized duration sentence of branch 2c (generation.ts 195-200);
`m` is the first regex match and `m[0]` its first character. -/
def monthSynthesis (m : String) : String × ℚ :=
  let months := if strContains (jsCharAt m 0) "18" then "18 months" else "15 months"
  ("The SPJIMR PGPM is " ++ months ++
     ". It includes 2 months online, 12 months on-campus, and 4 months for social/start-up projects and international immersion. Please verify with SPJIMR for the latest details.",
   if strContains (jsCharAt m 0) "18" then (mkRat 9 10) else (mkRat 6 10))

instance : DecidableEq (Except RagError RAGState) := fun a b =>
  match a, b with
  | .ok x, .ok y => decidable_of_iff (x = y) (by simp)
  | .error x, .error y => decidable_of_iff (x = y) (by simp)
  | .ok _, .error _ => isFalse (by simp)
  | .error _, .ok _ => isFalse (by simp)

/-- Result of `generationNode`: the state update (or a rethrown
`GenerationError`), plus whether any LLM call was made. -/
structure GenResult where
  out : Except RagError RAGState
  calledLLM : Bool
deriving Repr, DecidableEq

/-- A grounded-generation salvage call shared by branches 2a/2b/2d: on success
the generated text with the branch confidence and `needsValidation := true`; a
a thrown call lands in the outer catch of the node, which substitutes
`VERIFICATION_FAILED` at confidence 0.1 without rethrowing. -/
def salvageGenerate (gen : String → String → Except Unit String) (s : RAGState)
    (conf : ℚ) : GenResult :=
  match gen (docsContentOf s.retrievedDocs) s.query with
  | .ok r => ⟨.ok { s with response := r, needsValidation := true, confidence := conf }, true⟩
  | .error _ =>
    ⟨.ok { s with response := VERIFICATION_FAILED, needsValidation := false,
                  confidence := (mkRat 1 10), errorMessage := some "generation call failed" }, true⟩

/-- The insufficient-information path of `generationNode` (case 2): the salvage
branches in source order, then the graceful-fallback call with its own
try/catch. -/
def genInsufficient (gen : String → String → Except Unit String)
    (fb : String → Except Unit String) (s : RAGState) : GenResult :=
  let queryLower := jsToLower s.query
  if (strContains queryLower "fee" || strContains queryLower "cost") &&
      decide (0 < s.retrievedDocs.length) && hasFeeInfoDoc s.retrievedDocs then
    salvageGenerate gen s (mkRat 7 10)
  else if (isFollowUpGen s.query || isStatsGen s.query || isBroadGen s.query) &&
      decide (0 < s.retrievedDocs.length) then
    salvageGenerate gen s (mkRat 8 10)
  else if wantsDurationGen s.query && (docsMonthMatch s.retrievedDocs).isSome then
    let m := (docsMonthMatch s.retrievedDocs).getD ""
    ⟨.ok { s with response := (monthSynthesis m).1, needsValidation := false,
                  confidence := (monthSynthesis m).2 }, false⟩
  else if wantsSocialGen s.query && decide (0 < s.retrievedDocs.length) &&
      hasSocialDoc s.retrievedDocs then
    salvageGenerate gen s (mkRat 75 100)
  else
    match fb s.query with
    | .ok r => ⟨.ok { s with response := r, needsValidation := false, confidence := (mkRat 3 10) }, true⟩
    | .error _ =>
      ⟨.ok { s with response := NO_INFORMATION, needsValidation := false, confidence := (mkRat 2 10) }, true⟩

/-- Embedding of `generationNode`: branch 1 (not relevant, fixed template at confidence 1),
case 2 (insufficient information, salvage ladder), case 3 (grounded generation
from the full context; empty or sub-20-character output is a rethrown
`GenerationError`, other call failures degrade to `VERIFICATION_FAILED` at 0.1,
success keeps the incoming confidence unless it is falsy). -/
def generationNode (gen : String → String → Except Unit String)
    (fb : String → Except Unit String) (s : RAGState) : GenResult :=
  if s.isRelevant = false then
    ⟨.ok { s with response := NOT_RELEVANT, needsValidation := false, confidence := 1 }, false⟩
  else if !s.hasAnswer || decide ((jsTrim s.context).length = 0) then
    genInsufficient gen fb s
  else
    match gen s.context s.query with
    | .error _ =>
      ⟨.ok { s with response := VERIFICATION_FAILED, needsValidation := false,
                    confidence := (mkRat 1 10), errorMessage := some "generation call failed" }, true⟩
    | .ok r =>
      if (jsTrim r).length < 20 then ⟨.error .generationError, true⟩
      else ⟨.ok { s with response := r, needsValidation := true,
                         confidence := jsOrQ s.confidence (mkRat 8 10) }, true⟩

/-! ## langgraph/nodes/responseValidation.ts -/

/-- Embedding of `responseValidationNode`: skip when validation is not needed; degrade to
`VERIFICATION_FAILED` when the response or context is missing; otherwise call
the judge, whose parsed verdict is then ignored — the response passes through
unchanged with confidence `max(0.8, state.confidence || 0.8)`. -/
def responseValidationNode (judge : String → String → RespJudgeOutcome) (s : RAGState) :
    Except RagError RAGState :=
  if s.needsValidation = false then
    .ok s
  else if s.response = "" || s.context = "" then
    .ok { s with response := VERIFICATION_FAILED, needsValidation := false, confidence := (mkRat 1 10) }
  else
    match judge s.context s.response with
    | .parseFail => .error .validationError
    | .callFail =>
      .ok { s with response := VERIFICATION_FAILED, needsValidation := false,
                   confidence := (mkRat 1 10), errorMessage := some "response validation call failed" }
    | .reply =>
      .ok { s with needsValidation := false, confidence := max (mkRat 8 10) (jsOrQ s.confidence (mkRat 8 10)) }

/-! ## langgraph/workflow.ts — executeRAGWorkflowFallback

`createRAGWorkflow` registers five nodes but always executes the manual
fallback sequencer, which runs validation, then (only for relevant queries)
retrieval and context check, then generation, and intentionally skips the
fifth registered node (`"Step 5: Response validation (intentionally disabled
for speed)"`).  The run result records the state after each executed stage,
keyed by the stage names used in the graph registration; stage errors abort
the remaining stages and the catch substitutes a fixed apologetic state. -/

/-- The initial `RAGState` built by the workflow and server for a query. -/
def initState (query : String) : RAGState :=
  { query := query, isRelevant := false, retrievedDocs := [], hasAnswer := false,
    context := "", response := "", needsValidation := false, confidence := 0,
    sources := [], errorMessage := none }

/-- The fixed degraded state produced by the catch of the fallback sequencer. -/
def errorState (query : String) : RAGState :=
  { query := query, isRelevant := false, retrievedDocs := [], hasAnswer := false,
    context := "",
    response := "I apologize, but I encountered an error while processing your question. Please try again or contact SPJIMR directly for assistance.",
    needsValidation := false, confidence := (mkRat 1 10), sources := [],
    errorMessage := some "stage error" }

/-- A completed pipeline run: the final state and, for each stage that ran to
completion, its name and output state in execution order. -/
structure RunResult where
  final : RAGState
  trace : List (String × RAGState)
deriving Repr

/-- Embedding of `executeRAGWorkflowFallback(query)`. -/
def fallbackRun (o : Oracles) (query : String) : RunResult :=
  match queryValidationNode o.queryJudge (initState query) with
  | .error _ => ⟨errorState query, []⟩
  | .ok s1 =>
    let t1 := [("validate_query", s1)]
    if s1.isRelevant then
      match retrievalNode o.retrieve s1 with
      | .error _ => ⟨errorState query, t1⟩
      | .ok s2 =>
        let t2 := t1 ++ [("retrieve", s2)]
        match (contextCheckNode o.ctxJudge s2).1 with
        | .error _ => ⟨errorState query, t2⟩
        | .ok s3 =>
          let t3 := t2 ++ [("check_context", s3)]
          match (generationNode o.generate o.fallbackGen s3).out with
          | .error _ => ⟨errorState query, t3⟩
          | .ok s4 => ⟨s4, t3 ++ [("generate", s4)]⟩
    else
      match (generationNode o.generate o.fallbackGen s1).out with
      | .error _ => ⟨errorState query, t1⟩
      | .ok s4 => ⟨s4, t1 ++ [("generate", s4)]⟩

/-! ## server.ts — handleStreamingChat as an SSE frame sequence

The handler writes `connected`, starts the heartbeat interval, writes one
`status`, awaits the workflow (during which `token` frames from the streaming
callback and `ping` heartbeats interleave), then writes `complete` — or, if
the awaited call rejected, `error` — and finally `end` before closing.  The
code between the workflow resolving and the `end` write is synchronous, so no
heartbeat can fire after `complete`. -/

/-- The SSE frame types emitted by server.ts / shared/sse.ts. -/
inductive StreamEvent where
  | connected
  | status
  | token
  | complete
  | errorEv
  | endEv
  | ping
deriving Repr, DecidableEq

/-- An event occurring while the workflow promise is pending. -/
inductive MidEvent where
  | tokenM
  | pingM
deriving Repr, DecidableEq

/-- Mid-stream events are `token` or `ping` frames. -/
def MidEvent.toEvent : MidEvent → StreamEvent
  | .tokenM => .token
  | .pingM => .ping

/-- The frame sequence written by `handleStreamingChat` once the SSE headers
are out, for a given await outcome. -/
def streamChatFrames (mid : List MidEvent) (outcome : Except RagError RAGState) :
    List StreamEvent :=
  [.connected, .status] ++ mid.map MidEvent.toEvent ++
    (match outcome with | .ok _ => [.complete] | .error _ => [.errorEv]) ++ [.endEv]

/-- Embedding of `handleStreamingChat`: the composite question is built from the session
memory, trimmed, and run through the workflow, whose fallback sequencer
resolves (never rejects) even when a stage throws. -/
def handleStreamingChat (o : Oracles) (question : String) (history : List Turn)
    (mid : List MidEvent) : List StreamEvent :=
  streamChatFrames mid
    (.ok (fallbackRun o (jsTrim (buildCompositeQuery question history))).final)

/-! ## The JSON-decode step of the classifier/judge calls

queryValidation.ts (lines 100-114) and contextCheck.ts (lines 104-117) wrap
only `JSON.parse` in the try/catch: a syntactically malformed reply raises a
`ValidationError`, while any successfully parsed value has its properties read
off verbatim — the declared zod schemas are never applied, so missing or
ill-typed fields (JS `undefined`, wrong runtime types) flow through.  This
models that decode step at the JS-value level. -/

/-- A JS value read off a parsed reply (property access on a non-object or a
missing property yields `undef`). -/
inductive JsVal where
  | bool (b : Bool)
  | num (q : ℚ)
  | str (s : String)
  | null
  | undef
deriving Repr, DecidableEq

/-- The fields contextCheck.ts reads off the parsed judge reply. -/
structure CtxParsedFields where
  hasAnswer : JsVal
  confidence : JsVal
  reasoning : JsVal
deriving Repr, DecidableEq

/-- The fields queryValidation.ts reads off the parsed classifier reply. -/
structure QueryParsedFields where
  isRelevant : JsVal
  category : JsVal
  reason : JsVal
  confidence : JsVal
deriving Repr, DecidableEq

/-- Outcome of `JSON.parse` on the raw LLM text plus the property reads:
either the parse threw, or it produced a value with the given fields. -/
inductive CtxParseOutcome where
  | syntaxError
  | parsed (fields : CtxParsedFields)
deriving Repr, DecidableEq

/-- Same for the query-validation call. -/
inductive QueryParseOutcome where
  | syntaxError
  | parsed (fields : QueryParsedFields)
deriving Repr, DecidableEq

/-- The decode step of contextCheck.ts: only a parse throw is rejected. -/
def decodeContextValidation : CtxParseOutcome → Except RagError CtxParsedFields
  | .syntaxError => .error .validationError
  | .parsed f => .ok f

/-- The decode step of queryValidation.ts: only a parse throw is rejected. -/
def decodeQueryValidation : QueryParseOutcome → Except RagError QueryParsedFields
  | .syntaxError => .error .validationError
  | .parsed f => .ok f

/-- The structured shape the context-judge reply is required to have
(`ContextValidationSchema`: boolean `hasAnswer`, numeric `confidence` within
[0,1]). -/
def requiredCtxSchema (f : CtxParsedFields) : Prop :=
  (∃ b, f.hasAnswer = .bool b) ∧ (∃ q, f.confidence = .num q ∧ 0 ≤ q ∧ q ≤ 1)

/-- Boolean form of `requiredCtxSchema`. -/
def requiredCtxSchemaB (f : CtxParsedFields) : Bool :=
  (match f.hasAnswer with | .bool _ => true | _ => false) &&
  (match f.confidence with | .num q => decide (0 ≤ q ∧ q ≤ 1) | _ => false)

lemma requiredCtxSchemaB_iff (f : CtxParsedFields) :
    requiredCtxSchemaB f = true ↔ requiredCtxSchema f := by
  unfold requiredCtxSchemaB requiredCtxSchema
  cases f.hasAnswer <;> cases f.confidence <;> simp

instance (f : CtxParsedFields) : Decidable (requiredCtxSchema f) :=
  decidable_of_iff (requiredCtxSchemaB f = true) (requiredCtxSchemaB_iff f)

/-! ## Theorems -/

lemma addTurn_eq (t : Turn) (h : List Turn) :
    addTurn t h =
      if (h ++ [t]).length > maxHistoryLength then (h ++ [t]).tail else h ++ [t] := rfl

/-- Folding `addTurn` never grows the history beyond capacity. -/
lemma addTurn_length_le (t : Turn) (h : List Turn) (hh : h.length ≤ maxHistoryLength) :
    (addTurn t h).length ≤ maxHistoryLength := by
  rw [addTurn_eq]
  split
  · simpa using hh
  · simp at *
    omega

lemma foldl_addTurn_length_le (ts : List Turn) (h : List Turn)
    (hh : h.length ≤ maxHistoryLength) :
    (ts.foldl (fun acc t => addTurn t acc) h).length ≤ maxHistoryLength := by
  induction ts generalizing h with
  | nil => simpa using hh
  | cons t rest ih => exact ih (addTurn t h) (addTurn_length_le t h hh)

/-- Claim C8: starting from a fresh session, any sequence of `addTurn`
operations leaves the conversation history at no more than 10 turns, and an
insertion into a history already at capacity drops exactly the oldest turn,
appending the new one at the back (FIFO order preserved). -/
theorem claim_C8 (ts : List Turn) (h : List Turn) (t : Turn)
    (hcap : h.length = maxHistoryLength) :
    (ts.foldl (fun acc t => addTurn t acc) []).length ≤ maxHistoryLength ∧
    addTurn t h = h.tail ++ [t] := by
  constructor
  · exact foldl_addTurn_length_le ts [] (by simp [maxHistoryLength])
  · unfold addTurn
    rw [if_pos (by simp [hcap, maxHistoryLength])]
    cases h with
    | nil => simp [maxHistoryLength] at hcap
    | cons a rest => simp

/-- A sample turn for concrete instantiations. -/
def turnEx : Turn := ⟨0, "What is PGPM?", "An 18-month programme.", (mkRat 9 10), ["overview.md"]⟩

/-- Witness for C8 at a concrete full history and insertion. -/
theorem claim_C8_witness :
    ((List.replicate 12 turnEx).foldl (fun acc t => addTurn t acc) []).length ≤ maxHistoryLength ∧
    addTurn turnEx (List.replicate 10 turnEx) = (List.replicate 10 turnEx).tail ++ [turnEx] :=
  claim_C8 (List.replicate 12 turnEx) (List.replicate 10 turnEx) turnEx (by decide)

/-- Claim C6: with an empty retrieved-document list, the context gate returns
`hasAnswer = false`, `confidence = 0`, `context = ""` and does not invoke the
judge. -/
theorem claim_C6 (judge : String → String → CtxJudgeOutcome) (s : RAGState)
    (hdocs : s.retrievedDocs = []) :
    contextCheckNode judge s =
      (.ok { s with hasAnswer := false, context := "", confidence := 0 }, false) := by
  unfold contextCheckNode
  rw [if_pos (by simp [hdocs])]

/-- Witness for C6 on a concrete state whose retrieval returned nothing. -/
theorem claim_C6_witness :
    contextCheckNode (fun _ _ => .reply true (mkRat 9 10)) (initState "what are the fees") =
      (.ok { initState "what are the fees" with
               hasAnswer := false, context := "", confidence := 0 }, false) :=
  claim_C6 (fun _ _ => .reply true (mkRat 9 10)) (initState "what are the fees") rfl

/-- Counterexample to claim C7 as stated: the reply `{}` is syntactically valid
JSON but does not match the required structured schema, yet the decode step of
contextCheck.ts accepts it verbatim instead of raising a `ValidationError`. -/
theorem claim_C7_cex :
    decodeContextValidation (.parsed ⟨.undef, .undef, .undef⟩) = .ok ⟨.undef, .undef, .undef⟩ ∧
    ¬ requiredCtxSchema ⟨.undef, .undef, .undef⟩ :=
  ⟨rfl, by decide⟩

/-- Claim C7 (amended): for both classifier calls, a reply whose text fails
`JSON.parse` is a hard `ValidationError`; a syntactically valid JSON reply is
accepted with its fields copied verbatim, with no schema validation applied. -/
theorem claim_C7 :
    decodeContextValidation .syntaxError = .error .validationError ∧
    (∀ f, decodeContextValidation (.parsed f) = .ok f) ∧
    decodeQueryValidation .syntaxError = .error .validationError ∧
    (∀ f, decodeQueryValidation (.parsed f) = .ok f) :=
  ⟨rfl, fun _ => rfl, rfl, fun _ => rfl⟩

/-- Claim C10: on a successful classifier call the relevance flag is the OR of
the classifier verdict with the deterministic fallback, so a query meeting any
fallback condition (domain keyword, the pgpm/spjimr/mba word pattern, trimmed
length at most 3, or a known term) is marked relevant regardless of the
verdict, and rejection requires every fallback condition to be false. -/
theorem claim_C10 (judge : String → QueryJudgeOutcome) (s : RAGState)
    (rel : Bool) (conf : ℚ) (hj : judge s.query = .reply rel conf) :
    ∃ s1, queryValidationNode judge s = .ok s1 ∧
      s1.isRelevant = (rel || fallbackRelevant s.query) ∧
      fallbackRelevant s.query =
        (hasRelevantKeywords s.query ||
         (hasWordOccur s.query "pgpm" || hasWordOccur s.query "spjimr" ||
           hasWordOccur s.query "mba") ||
         decide ((jsTrim s.query).length ≤ 3) || isKnownPGPMTerm s.query) ∧
      (s1.isRelevant = false → rel = false ∧ fallbackRelevant s.query = false) := by
  unfold queryValidationNode
  rw [hj]
  refine ⟨_, rfl, ?_, rfl, ?_⟩
  · cases rel <;> simp
  · intro hfalse
    cases rel <;> simp_all

/-- Since every row of the `specificQueries` table carries threshold 0.2, the
first-match scan returns 0.2 exactly when some row matches, else the 0.3
default. -/
lemma thresholdScan_eq (ql cl : String) (table : List ThresholdEntry)
    (h : ∀ e ∈ table, e.threshold = (mkRat 2 10)) :
    thresholdScan ql cl table =
      if table.any (fun e => entryMatches e ql cl) then (mkRat 2 10) else (mkRat 3 10) := by
  induction table with
  | nil => simp [thresholdScan]
  | cons e rest ih =>
    unfold thresholdScan
    by_cases hm : entryMatches e ql cl = true
    · simp [hm, h e (by simp)]
    · simp only [List.any_cons, hm, Bool.false_or, if_neg hm]
      exact ih (fun e2 he2 => h e2 (by simp [he2]))

/-- Claim C5: with at least one retrieved document and a successful judge call,
the returned `hasAnswer` is the judge verdict AND-ed with the adaptive-threshold
test, `context` is the document blob exactly when that final `hasAnswer` holds
and empty otherwise, the returned confidence is the raw judge confidence; and
`getAdaptiveConfidenceThreshold` returns 0.2 exactly when some
(query-keyword, context-indicator) row matches — in particular 0.2 for the fees
query against a context containing `Rs.` — and 0.3 otherwise. -/
theorem claim_C5 (judge : String → String → CtxJudgeOutcome) (s : RAGState)
    (hA : Bool) (c : ℚ) (hne : s.retrievedDocs ≠ [])
    (hj : judge (docsContentOf s.retrievedDocs) s.query = .reply hA c) :
    (contextCheckNode judge s).1 =
      .ok { s with
              hasAnswer := hA &&
                decide (getAdaptiveConfidenceThreshold s.query (docsContentOf s.retrievedDocs) ≤ c),
              context := if hA &&
                  decide (getAdaptiveConfidenceThreshold s.query (docsContentOf s.retrievedDocs) ≤ c)
                then docsContentOf s.retrievedDocs else "",
              confidence := c } ∧
    (∀ q ctx, getAdaptiveConfidenceThreshold q ctx =
      if specificQueries.any (fun e => entryMatches e (jsToLower q) (jsToLower ctx)) then (mkRat 2 10) else (mkRat 3 10)) ∧
    getAdaptiveConfidenceThreshold "what are the fees" "...Rs. 21,00,000..." = (mkRat 2 10) ∧
    getAdaptiveConfidenceThreshold "random question" "" = (mkRat 3 10) := by
  refine ⟨?_, ?_, by decide, by decide⟩
  · unfold contextCheckNode
    rw [if_neg (by simpa using hne)]
    dsimp only
    rw [hj]
  · intro q ctx
    exact thresholdScan_eq (jsToLower q) (jsToLower ctx) specificQueries (by decide)

/-- Witness for C5 on a one-document state and a concrete judge reply. -/
theorem claim_C5_witness :
    (contextCheckNode (fun _ _ => .reply true (mkRat 5 10))
        { initState "what are the fees" with
            retrievedDocs := [⟨"Total fee Rs. 21,00,000.", "fees.md"⟩] }).1 =
      .ok { { initState "what are the fees" with
                retrievedDocs := [⟨"Total fee Rs. 21,00,000.", "fees.md"⟩] } with
              hasAnswer := true &&
                decide (getAdaptiveConfidenceThreshold "what are the fees"
                  (docsContentOf [⟨"Total fee Rs. 21,00,000.", "fees.md"⟩]) ≤ ((mkRat 5 10) : ℚ)),
              context := if true &&
                  decide (getAdaptiveConfidenceThreshold "what are the fees"
                    (docsContentOf [⟨"Total fee Rs. 21,00,000.", "fees.md"⟩]) ≤ ((mkRat 5 10) : ℚ))
                then docsContentOf [⟨"Total fee Rs. 21,00,000.", "fees.md"⟩] else "",
              confidence := (mkRat 5 10) } ∧
    (∀ q ctx, getAdaptiveConfidenceThreshold q ctx =
      if specificQueries.any (fun e => entryMatches e (jsToLower q) (jsToLower ctx)) then (mkRat 2 10) else (mkRat 3 10)) ∧
    getAdaptiveConfidenceThreshold "what are the fees" "...Rs. 21,00,000..." = (mkRat 2 10) ∧
    getAdaptiveConfidenceThreshold "random question" "" = (mkRat 3 10) :=
  claim_C5 (fun _ _ => .reply true (mkRat 5 10))
    { initState "what are the fees" with
        retrievedDocs := [⟨"Total fee Rs. 21,00,000.", "fees.md"⟩] }
    true (mkRat 5 10) (by decide) rfl

lemma midEvent_toEvent_cases (m : MidEvent) :
    m.toEvent = .token ∨ m.toEvent = .ping := by
  cases m <;> simp [MidEvent.toEvent]

lemma count_map_midEvent_eq_zero (ev : StreamEvent)
    (h : ∀ m : MidEvent, m.toEvent ≠ ev) (mid : List MidEvent) :
    (mid.map MidEvent.toEvent).count ev = 0 := by
  rw [List.count_eq_zero]
  intro hmem
  rcases List.mem_map.mp hmem with ⟨m, _, hm⟩
  exact h m hm

/-- Claim C1: every streaming request emits exactly one `connected`, one
`complete` and one `end` frame, in that order, with only `token`/`status`/`ping`
frames strictly between `connected` and `complete`; stage failures are absorbed
by the fallback sequencer so the workflow promise still resolves, and even on
an internal failure of the awaited call the handler still terminates the frame
sequence with an `end` frame before closing the connection. -/
theorem claim_C1 (o : Oracles) (question : String) (history : List Turn)
    (mid : List MidEvent) :
    (∃ between,
        handleStreamingChat o question history mid =
          .connected :: (between ++ [.complete, .endEv]) ∧
        ∀ e ∈ between, e = .status ∨ e = .token ∨ e = .ping) ∧
    (handleStreamingChat o question history mid).count .connected = 1 ∧
    (handleStreamingChat o question history mid).count .complete = 1 ∧
    (handleStreamingChat o question history mid).count .endEv = 1 ∧
    (∀ (mid2 : List MidEvent) (outcome : Except RagError RAGState),
      ∃ pre, streamChatFrames mid2 outcome = pre ++ [.endEv]) := by
  have hshape : handleStreamingChat o question history mid =
      .connected :: ((.status :: mid.map MidEvent.toEvent) ++ [.complete, .endEv]) := by
    unfold handleStreamingChat streamChatFrames
    simp
  refine ⟨⟨.status :: mid.map MidEvent.toEvent, hshape, ?_⟩, ?_, ?_, ?_, ?_⟩
  · intro e he
    rcases List.mem_cons.mp he with rfl | he2
    · exact Or.inl rfl
    · rcases List.mem_map.mp he2 with ⟨m, _, rfl⟩
      rcases midEvent_toEvent_cases m with h | h <;> rw [h] <;> simp
  · rw [hshape]
    simp [List.count_cons, List.count_append,
      count_map_midEvent_eq_zero .connected (by intro m; cases m <;> simp [MidEvent.toEvent]) mid]
  · rw [hshape]
    simp [List.count_cons, List.count_append,
      count_map_midEvent_eq_zero .complete (by intro m; cases m <;> simp [MidEvent.toEvent]) mid]
  · rw [hshape]
    simp [List.count_cons, List.count_append,
      count_map_midEvent_eq_zero .endEv (by intro m; cases m <;> simp [MidEvent.toEvent]) mid]
  · intro mid2 outcome
    refine ⟨[.connected, .status] ++ mid2.map MidEvent.toEvent ++
      (match outcome with | .ok _ => [.complete] | .error _ => [.errorEv]), ?_⟩
    cases outcome <;> simp [streamChatFrames]

/-- Every stage name recorded by the fallback sequencer is one of the four
stages it actually runs; the registered fifth stage never executes. -/
lemma fallbackRun_stage_names (o : Oracles) (q : String) :
    ∀ p ∈ (fallbackRun o q).trace,
      p.1 = "validate_query" ∨ p.1 = "retrieve" ∨ p.1 = "check_context" ∨ p.1 = "generate" := by
  intro p hp
  unfold fallbackRun at hp
  cases hqv : queryValidationNode o.queryJudge (initState q) with
  | error e => rw [hqv] at hp; simp at hp
  | ok s1 =>
    rw [hqv] at hp
    dsimp only at hp
    by_cases hrel : s1.isRelevant = true
    · rw [if_pos hrel] at hp
      cases hret : retrievalNode o.retrieve s1 with
      | error e => rw [hret] at hp; simp at hp; simp [hp]
      | ok s2 =>
        rw [hret] at hp
        dsimp only at hp
        cases hctx : (contextCheckNode o.ctxJudge s2).1 with
        | error e =>
          rw [hctx] at hp; simp at hp
          rcases hp with hp | hp <;> simp [hp]
        | ok s3 =>
          rw [hctx] at hp
          dsimp only at hp
          cases hgen : (generationNode o.generate o.fallbackGen s3).out with
          | error e =>
            rw [hgen] at hp; simp at hp
            rcases hp with hp | hp | hp <;> simp [hp]
          | ok s4 =>
            rw [hgen] at hp; simp at hp
            rcases hp with hp | hp | hp | hp <;> simp [hp]
    · rw [if_neg hrel] at hp
      cases hgen : (generationNode o.generate o.fallbackGen s1).out with
      | error e => rw [hgen] at hp; simp at hp; simp [hp]
      | ok s4 =>
        rw [hgen] at hp; simp at hp
        rcases hp with hp | hp <;> simp [hp]

/-- Claim C2 (amended): the response-validation stage exists and, when invoked
on a state that requested validation with a non-empty response and context and
a successful judge call, passes the response through unchanged, clears the
flag, and raises the confidence to at least 0.8 — but the fallback sequencer,
which handles every pipeline run, never executes it. -/
theorem claim_C2 (o : Oracles) (q : String)
    (judge : String → String → RespJudgeOutcome) (s : RAGState)
    (hv : s.needsValidation = true) (hr : s.response ≠ "") (hc : s.context ≠ "")
    (hj : judge s.context s.response = .reply) :
    "validate_response" ∉ (fallbackRun o q).trace.map Prod.fst ∧
    ∃ s2, responseValidationNode judge s = .ok s2 ∧
      s2.response = s.response ∧ s2.needsValidation = false ∧
      mkRat 8 10 ≤ s2.confidence := by
  constructor
  · intro hmem
    rcases List.mem_map.mp hmem with ⟨p, hp, hname⟩
    rcases fallbackRun_stage_names o q p hp with h | h | h | h <;> rw [hname] at h <;>
      exact absurd h (by decide)
  · have hnode : responseValidationNode judge s =
        .ok { s with needsValidation := false,
                     confidence := max (mkRat 8 10) (jsOrQ s.confidence (mkRat 8 10)) } := by
      unfold responseValidationNode
      rw [if_neg (by simp [hv]), if_neg (by simp [hr, hc]), hj]
    exact ⟨_, hnode, rfl, rfl, le_max_left _ _⟩

/-- Oracles for the C2 counterexample run: a relevant fees query, one fee
document, a context judge at confidence 0.5 (above the adaptive 0.2 threshold)
and a grounded generation that succeeds. -/
def oC2ex : Oracles :=
  { queryJudge := fun _ => .reply true (mkRat 9 10),
    retrieve := fun _ => .ok ([⟨"The PGPM fee is Rs. 21,00,000 in total.", "fees.md"⟩], ["fees.md"]),
    ctxJudge := fun _ _ => .reply true (mkRat 5 10),
    generate := fun _ _ => .ok "The total PGPM fee is Rs. 21,00,000. Please verify with SPJIMR.",
    fallbackGen := fun _ => .ok "FALLBACK ANSWER" }

/-- Counterexample to claim C2 as stated: in this complete pipeline run,
generation requests validation, yet the final state still carries
`needsValidation = true` with confidence 0.5 < 0.8, and the executed stages do
not include `validate_response` — the fifth stage did not run. -/
theorem claim_C2_cex :
    (fallbackRun oC2ex "what are the fees").final.needsValidation = true ∧
    (fallbackRun oC2ex "what are the fees").final.confidence < mkRat 8 10 ∧
    (fallbackRun oC2ex "what are the fees").trace.map Prod.fst =
      ["validate_query", "retrieve", "check_context", "generate"] := by
  refine ⟨by decide, by decide, by decide⟩

/-- A state on which the response-validation stage would act if invoked. -/
def rvStateEx : RAGState :=
  { initState "what are the fees" with
      needsValidation := true,
      response := "The total PGPM fee is Rs. 21,00,000. Please verify with SPJIMR.",
      context := "Document 1:\nThe PGPM fee is Rs. 21,00,000 in total.",
      confidence := mkRat 5 10 }

/-- Witness for C2 (amended) at a concrete run and invocation. -/
theorem claim_C2_witness :
    "validate_response" ∉ (fallbackRun oC2ex "what are the fees").trace.map Prod.fst ∧
    ∃ s2, responseValidationNode (fun _ _ => .reply) rvStateEx = .ok s2 ∧
      s2.response = rvStateEx.response ∧ s2.needsValidation = false ∧
      mkRat 8 10 ≤ s2.confidence :=
  claim_C2 oC2ex "what are the fees" (fun _ _ => .reply) rvStateEx rfl
    (by decide) (by decide) rfl

/-- Witness for C10: the bare query `fees` is forced relevant by the keyword
fallback even though the classifier said it was not relevant. -/
theorem claim_C10_witness :
    ∃ s1, queryValidationNode (fun _ => .reply false (mkRat 5 10)) (initState "fees") = .ok s1 ∧
      s1.isRelevant = (false || fallbackRelevant (initState "fees").query) ∧
      fallbackRelevant (initState "fees").query =
        (hasRelevantKeywords (initState "fees").query ||
         (hasWordOccur (initState "fees").query "pgpm" ||
           hasWordOccur (initState "fees").query "spjimr" ||
           hasWordOccur (initState "fees").query "mba") ||
         decide ((jsTrim (initState "fees").query).length ≤ 3) ||
         isKnownPGPMTerm (initState "fees").query) ∧
      (s1.isRelevant = false →
        false = false ∧ fallbackRelevant (initState "fees").query = false) :=
  claim_C10 (fun _ => .reply false (mkRat 5 10)) (initState "fees") false (mkRat 5 10) rfl

set_option maxRecDepth 4096

/-- A grounded-generation oracle whose reply is recognizable, to show which
branch produced a response. -/
def genEx : String → String → Except Unit String := fun _ _ => .ok "GROUNDED RESPONSE TEXT HERE"

/-- A graceful-fallback oracle with a recognizable reply. -/
def fbEx : String → Except Unit String := fun _ => .ok "FALLBACK ANSWER"

/-- One prior turn discussing admissions, as in the C3 scenario. -/
def memC3 : List Turn :=
  [⟨0, "What are the admission requirements?", "Admissions are rolling with interviews.",
    mkRat 9 10, ["admissions.md"]⟩]

/-- The generation-stage input of the C3 scenario: the composite follow-up
query built from `memC3` for the question `tell me more`, one retrieved
document, and an insufficient context-gate verdict (`hasAnswer = false`,
raw judge confidence 0.1). -/
def stC3 : RAGState :=
  { initState (jsTrim (buildCompositeQuery "tell me more" memC3)) with
      isRelevant := true,
      retrievedDocs := [⟨"SPJIMR PGPM admissions are based on profile and interviews.", "admissions.md"⟩],
      hasAnswer := false, context := "", confidence := mkRat 1 10 }

/-- Claim C3 evaluated on the code: `tell me more` is a follow-up, so the
query reaching generation is the composite query with the prior Q/A context
and the follow-up framing note — and on that composite the anchored branch-2b
follow-up regex cannot match, so branch 2b does not fire: generation falls
through to the graceful-fallback call and returns its text at confidence 0.3
with `needsValidation = false`, not a grounded branch-2b response at 0.8. -/
theorem claim_C3 :
    isFollowUpQuery "tell me more" = true ∧
    stC3.query = jsTrim (buildCompositeQuery "tell me more" memC3) ∧
    isFollowUpGen stC3.query = false ∧ isStatsGen stC3.query = false ∧
    isBroadGen stC3.query = false ∧
    generationNode genEx fbEx stC3 =
      ⟨.ok { stC3 with response := "FALLBACK ANSWER", needsValidation := false,
                       confidence := mkRat 3 10 }, true⟩ := by
  exact ⟨by decide, rfl, by decide, by decide, by decide, by decide⟩

lemma jsOrQ_bounds (c : ℚ) (h0 : 0 ≤ c) (h1 : c ≤ 1) :
    0 ≤ jsOrQ c (mkRat 8 10) ∧ jsOrQ c (mkRat 8 10) ≤ 1 := by
  unfold jsOrQ
  split
  · exact ⟨by decide, by decide⟩
  · exact ⟨h0, h1⟩

lemma monthSynthesis_conf (m : String) :
    (monthSynthesis m).2 = mkRat 9 10 ∨ (monthSynthesis m).2 = mkRat 6 10 := by
  unfold monthSynthesis
  split <;> simp

lemma salvageGenerate_conf (gen : String → String → Except Unit String)
    (s s2 : RAGState) (conf : ℚ)
    (h : (salvageGenerate gen s conf).out = .ok s2) :
    s2.confidence = conf ∨ s2.confidence = mkRat 1 10 := by
  unfold salvageGenerate at h
  cases hg : gen (docsContentOf s.retrievedDocs) s.query with
  | ok r => rw [hg] at h; simp at h; rw [← h]; left; rfl
  | error e => rw [hg] at h; simp at h; rw [← h]; right; rfl

lemma genInsufficient_conf (gen : String → String → Except Unit String)
    (fb : String → Except Unit String) (s s2 : RAGState)
    (h : (genInsufficient gen fb s).out = .ok s2) :
    0 ≤ s2.confidence ∧ s2.confidence ≤ 1 := by
  unfold genInsufficient at h
  dsimp only at h
  by_cases c1 : ((strContains (jsToLower s.query) "fee" || strContains (jsToLower s.query) "cost") &&
      decide (0 < s.retrievedDocs.length) && hasFeeInfoDoc s.retrievedDocs) = true
  · rw [if_pos c1] at h
    rcases salvageGenerate_conf gen s s2 (mkRat 7 10) h with hc | hc <;> rw [hc] <;>
      exact ⟨by decide, by decide⟩
  · rw [if_neg c1] at h
    by_cases c2 : ((isFollowUpGen s.query || isStatsGen s.query || isBroadGen s.query) &&
        decide (0 < s.retrievedDocs.length)) = true
    · rw [if_pos c2] at h
      rcases salvageGenerate_conf gen s s2 (mkRat 8 10) h with hc | hc <;> rw [hc] <;>
        exact ⟨by decide, by decide⟩
    · rw [if_neg c2] at h
      by_cases c3 : (wantsDurationGen s.query && (docsMonthMatch s.retrievedDocs).isSome) = true
      · rw [if_pos c3] at h
        dsimp only at h
        simp at h
        rw [← h]
        dsimp only
        rcases monthSynthesis_conf ((docsMonthMatch s.retrievedDocs).getD "") with hc | hc <;>
          rw [hc] <;> exact ⟨by decide, by decide⟩
      · rw [if_neg c3] at h
        by_cases c4 : (wantsSocialGen s.query && decide (0 < s.retrievedDocs.length) &&
            hasSocialDoc s.retrievedDocs) = true
        · rw [if_pos c4] at h
          rcases salvageGenerate_conf gen s s2 (mkRat 75 100) h with hc | hc <;> rw [hc] <;>
            exact ⟨by decide, by decide⟩
        · rw [if_neg c4] at h
          cases hf : fb s.query with
          | ok r =>
            rw [hf] at h; simp at h; rw [← h]
            exact ⟨by dsimp only; decide, by dsimp only; decide⟩
          | error e =>
            rw [hf] at h; simp at h; rw [← h]
            exact ⟨by dsimp only; decide, by dsimp only; decide⟩

lemma generationNode_conf (gen : String → String → Except Unit String)
    (fb : String → Except Unit String) (s s2 : RAGState)
    (h : (generationNode gen fb s).out = .ok s2)
    (h0 : 0 ≤ s.confidence) (h1 : s.confidence ≤ 1) :
    0 ≤ s2.confidence ∧ s2.confidence ≤ 1 := by
  unfold generationNode at h
  by_cases c1 : s.isRelevant = false
  · rw [if_pos c1] at h
    simp at h
    rw [← h]
    exact ⟨by dsimp only; decide, by dsimp only; decide⟩
  · rw [if_neg c1] at h
    by_cases c2 : (!s.hasAnswer || decide ((jsTrim s.context).length = 0)) = true
    · rw [if_pos c2] at h
      exact genInsufficient_conf gen fb s s2 h
    · rw [if_neg c2] at h
      cases hg : gen s.context s.query with
      | error e =>
        rw [hg] at h; simp at h; rw [← h]
        exact ⟨by dsimp only; decide, by dsimp only; decide⟩
      | ok r =>
        rw [hg] at h
        dsimp only at h
        by_cases c3 : (jsTrim r).length < 20
        · rw [if_pos c3] at h
          simp at h
        · rw [if_neg c3] at h
          simp at h
          rw [← h]
          exact jsOrQ_bounds s.confidence h0 h1

lemma queryValidationNode_conf (judge : String → QueryJudgeOutcome) (s s2 : RAGState)
    (h : queryValidationNode judge s = .ok s2)
    (hq : ∀ q rel c, judge q = .reply rel c → 0 ≤ c ∧ c ≤ 1) :
    0 ≤ s2.confidence ∧ s2.confidence ≤ 1 := by
  unfold queryValidationNode at h
  cases hj : judge s.query with
  | parseFail => rw [hj] at h; simp at h
  | reply rel c =>
    rw [hj] at h
    dsimp only at h
    have hc := hq s.query rel c hj
    cases rel <;> simp at h <;> rw [← h] <;> exact hc

lemma retrievalNode_conf (retrieve : String → Except Unit (List Doc × List String))
    (s s2 : RAGState) (h : retrievalNode retrieve s = .ok s2) :
    s2.confidence = s.confidence := by
  unfold retrievalNode at h
  cases hr : retrieve s.query with
  | error e => rw [hr] at h; simp at h
  | ok r => rw [hr] at h; simp at h; rw [← h]

lemma contextCheckNode_conf (judge : String → String → CtxJudgeOutcome) (s s2 : RAGState)
    (h : (contextCheckNode judge s).1 = .ok s2)
    (hc : ∀ d q b c, judge d q = .reply b c → 0 ≤ c ∧ c ≤ 1) :
    0 ≤ s2.confidence ∧ s2.confidence ≤ 1 := by
  unfold contextCheckNode at h
  split at h
  · simp at h
    rw [← h]
    exact ⟨by dsimp only; decide, by dsimp only; decide⟩
  · dsimp only at h
    cases hj : judge (docsContentOf s.retrievedDocs) s.query with
    | parseFail => rw [hj] at h; simp at h
    | reply b c =>
      rw [hj] at h
      simp at h
      rw [← h]
      exact hc _ _ b c hj

lemma errorState_conf (q : String) :
    0 ≤ (errorState q).confidence ∧ (errorState q).confidence ≤ 1 :=
  ⟨by unfold errorState; dsimp only; decide, by unfold errorState; dsimp only; decide⟩

/-- Claim C4 (amended): provided every judge reply carries a confidence within
[0,1] — which the source assumes but never enforces, as its zod schemas are
never applied — the state after every executed stage, and the final state,
carry a confidence within [0,1]. -/
theorem claim_C4 (o : Oracles) (q : String)
    (hq : ∀ s rel c, o.queryJudge s = .reply rel c → 0 ≤ c ∧ c ≤ 1)
    (hc : ∀ d s b c, o.ctxJudge d s = .reply b c → 0 ≤ c ∧ c ≤ 1) :
    (∀ p ∈ (fallbackRun o q).trace, 0 ≤ p.2.confidence ∧ p.2.confidence ≤ 1) ∧
    (0 ≤ (fallbackRun o q).final.confidence ∧ (fallbackRun o q).final.confidence ≤ 1) := by
  unfold fallbackRun
  cases hqv : queryValidationNode o.queryJudge (initState q) with
  | error e => exact ⟨by simp, errorState_conf q⟩
  | ok s1 =>
    have hb1 := queryValidationNode_conf o.queryJudge (initState q) s1 hqv hq
    dsimp only
    by_cases hrel : s1.isRelevant = true
    · rw [if_pos hrel]
      cases hret : retrievalNode o.retrieve s1 with
      | error e =>
        dsimp only
        refine ⟨?_, errorState_conf q⟩
        intro p hp
        simp at hp
        rw [hp]
        exact hb1
      | ok s2 =>
        dsimp only
        have hb2 : 0 ≤ s2.confidence ∧ s2.confidence ≤ 1 := by
          rw [retrievalNode_conf o.retrieve s1 s2 hret]; exact hb1
        cases hctx : (contextCheckNode o.ctxJudge s2).1 with
        | error e =>
          dsimp only
          refine ⟨?_, errorState_conf q⟩
          intro p hp
          simp at hp
          rcases hp with hp | hp <;> rw [hp] <;> [exact hb1; exact hb2]
        | ok s3 =>
          dsimp only
          have hb3 := contextCheckNode_conf o.ctxJudge s2 s3 hctx hc
          cases hgen : (generationNode o.generate o.fallbackGen s3).out with
          | error e =>
            dsimp only
            refine ⟨?_, errorState_conf q⟩
            intro p hp
            simp at hp
            rcases hp with hp | hp | hp <;> rw [hp] <;> [exact hb1; exact hb2; exact hb3]
          | ok s4 =>
            dsimp only
            have hb4 := generationNode_conf o.generate o.fallbackGen s3 s4 hgen hb3.1 hb3.2
            refine ⟨?_, hb4⟩
            intro p hp
            simp at hp
            rcases hp with hp | hp | hp | hp <;> rw [hp] <;>
              [exact hb1; exact hb2; exact hb3; exact hb4]
    · rw [if_neg hrel]
      cases hgen : (generationNode o.generate o.fallbackGen s1).out with
      | error e =>
        dsimp only
        refine ⟨?_, errorState_conf q⟩
        intro p hp
        simp at hp
        rw [hp]
        exact hb1
      | ok s4 =>
        dsimp only
        have hb4 := generationNode_conf o.generate o.fallbackGen s1 s4 hgen hb1.1 hb1.2
        refine ⟨?_, hb4⟩
        intro p hp
        simp at hp
        rcases hp with hp | hp <;> rw [hp] <;> [exact hb1; exact hb4]

/-- Witness for C4 (amended) at concrete in-range oracles. -/
theorem claim_C4_witness :
    (∀ p ∈ (fallbackRun oC2ex "what are the fees").trace,
      0 ≤ p.2.confidence ∧ p.2.confidence ≤ 1) ∧
    (0 ≤ (fallbackRun oC2ex "what are the fees").final.confidence ∧
      (fallbackRun oC2ex "what are the fees").final.confidence ≤ 1) :=
  claim_C4 oC2ex "what are the fees"
    (by intro s rel c h; cases h; exact ⟨by decide, by decide⟩)
    (by intro d s b c h; cases h; exact ⟨by decide, by decide⟩)

/-- Oracles whose context judge replies with confidence 1.5: valid JSON, a
well-typed number, but outside [0,1] — and the source never applies its zod
schema, so the value flows through. -/
def oC4ex : Oracles :=
  { oC2ex with ctxJudge := fun _ _ => .reply true (mkRat 3 2) }

/-- Counterexample to claim C4 as stated: with a judge reply of confidence 1.5
the context-check stage output (and the final state) carry confidence 1.5,
outside [0,1]. -/
theorem claim_C4_cex :
    ¬ (∀ p ∈ (fallbackRun oC4ex "what are the fees").trace,
        0 ≤ p.2.confidence ∧ p.2.confidence ≤ 1) := by
  decide

/-- The generation-stage input of the C9 scenario: a duration query with a
retrieved document containing `18-month` and an insufficient context gate. -/
def stC9 : RAGState :=
  { initState "How long is PGPM?" with
      isRelevant := true,
      retrievedDocs := [⟨"PGPM is an 18-month programme.", "overview.md"⟩],
      hasAnswer := false, context := "", confidence := mkRat 1 10 }

/-- Claim C9 evaluated on the code: the month pattern does match `18-month`,
but the source tests `/18/` against `monthMatch[0]` — the first character
`"1"` of the match string, never containing `"18"` — so the synthesized answer
says `15 months` at confidence 0.6 instead of `18 months` at 0.9.  No LLM
generation call is made (`calledLLM = false`), as the claim states. -/
theorem claim_C9 :
    docsMonthMatch stC9.retrievedDocs = some "18-month" ∧
    jsCharAt "18-month" 0 = "1" ∧
    generationNode genEx fbEx stC9 =
      ⟨.ok { stC9 with
               response := "The SPJIMR PGPM is 15 months. It includes 2 months online, 12 months on-campus, and 4 months for social/start-up projects and international immersion. Please verify with SPJIMR for the latest details.",
               needsValidation := false, confidence := mkRat 6 10 }, false⟩ := by
  exact ⟨by decide, by decide, by decide⟩

end SpjimrRag
